import Mathlib

set_option autoImplicit false

/-!
Verification of the Retrieval & Synchronization Engine of the
acre-notebook-lm repository, as a shallow embedding in Lean 4.

Embedded components:
* the embedding service (src/lib/ai/embeddings.ts, generateEmbedding);
* the Airtable sync engine (src/lib/airtable/sync.ts: syncTable,
  syncAllTables, reembedTable) and the sync API route;
* the n8n webhook dispatcher (N8nClient.trigger and its constructor);
* the RAG phase of the chat API route (POST - /api/chat).

Modelling conventions: JavaScript asynchronous I/O (Airtable fetches,
Supabase upserts, HTTP calls, the embedding model) is represented by
explicit oracle functions passed as parameters; a fallible step is an
Except or Option value. Floating point vector components and rendered
primitive values are represented by their observable forms (Int
components, strings), since the verified code never computes with them
numerically. Timestamps (new Date().toISOString()) are threaded as an
explicit now parameter.
-/

namespace Acre

/-- Field value of an Airtable record (fields: Record of string to unknown).
    Non-string primitives, array elements and nested objects are carried in
    the string form that the JavaScript renderings (String(), Array.join,
    JSON.stringify) produce, since recordToText only consumes them through
    those renderings. null covers both null and undefined. -/
inductive FieldValue where
  | null
  | str (s : String)
  | arr (items : List String)
  | obj (json : String)
  | prim (s : String)
deriving DecidableEq

/-- Airtable record as fetched from the Airtable API. -/
structure AirtableRecord where
  id : String
  createdTime : String
  fields : List (String × FieldValue)
deriving DecidableEq

/-- Airtable table from the base schema. -/
structure AirtableTable where
  id : String
  name : String
deriving DecidableEq

/-- One rendered line of recordToText for a field key and value: null and
    undefined values are skipped, strings are used verbatim, arrays are
    joined with a comma and space, objects by their JSON rendering, other
    primitives by String(). Mirrors the branch structure of
    recordToText in src/lib/airtable/sync.ts. -/
def renderField (key : String) (v : FieldValue) : Option String :=
  match v with
  | FieldValue.null => none
  | FieldValue.str s => some (key ++ ": " ++ s)
  | FieldValue.arr items => some (key ++ ": " ++ String.intercalate ", " items)
  | FieldValue.obj json => some (key ++ ": " ++ json)
  | FieldValue.prim s => some (key ++ ": " ++ s)

/-- recordToText from src/lib/airtable/sync.ts: a Table header line followed
    by one line per non-null field, joined by newlines. -/
def recordToText (record : AirtableRecord) (tableName : String) : String :=
  String.intercalate "\n"
    (("Table: " ++ tableName) :: record.fields.filterMap (fun kv => renderField kv.1 kv.2))

/-- Result of generateEmbedding in src/lib/ai/embeddings.ts: the vector and
    the usage token count. Float vector components are modelled as Int,
    since the verified code never computes with them. -/
structure EmbeddingResult where
  embedding : List Int
  tokenCount : Nat
deriving DecidableEq

/-- Value stored in the embedding column of airtable_records: either a bare
    vector (what syncTable writes) or a whole serialized generateEmbedding
    result object with embedding and tokenCount members (what reembedTable
    writes). The column receives whichever JavaScript value is passed to
    the Supabase call. -/
inductive StoredEmbedding where
  | vec (v : List Int)
  | resObj (r : EmbeddingResult)
deriving DecidableEq

/-- Row of the airtable_records table (interface SyncedRecord in
    src/lib/airtable/sync.ts). -/
structure SyncedRecord where
  id : String
  external_id : String
  source : String
  base_id : String
  table_id : String
  table_name : String
  fields : List (String × FieldValue)
  created_at_source : String
  synced_at : String
  embedding : Option StoredEmbedding
deriving DecidableEq

/-- Composite conflict key used by the upsert:
    onConflict external_id, base_id, table_id. -/
structure SyncKey where
  external_id : String
  base_id : String
  table_id : String
deriving DecidableEq

/-- Conflict key of a stored record. -/
def SyncedRecord.key (r : SyncedRecord) : SyncKey :=
  { external_id := r.external_id, base_id := r.base_id, table_id := r.table_id }

/-- The airtable_records store, as the ordered list of its rows. -/
def Store := List SyncedRecord

/-- Supabase upsert with the composite conflict key: if a row with the same
    key exists it is replaced in place, otherwise the row is appended. -/
def upsertRecord (store : List SyncedRecord) (r : SyncedRecord) : List SyncedRecord :=
  if store.any (fun s => s.key == r.key) then
    store.map (fun s => if s.key = r.key then r else s)
  else
    store ++ [r]

/-- The record data built by syncTable for one Airtable record
    (lines 103 to 114 of src/lib/airtable/sync.ts). -/
def mkRecordData (baseId : String) (table : AirtableTable) (now : String)
    (embedding : Option (List Int)) (record : AirtableRecord) : SyncedRecord :=
  { id := baseId ++ "_" ++ table.id ++ "_" ++ record.id
    external_id := record.id
    source := "airtable"
    base_id := baseId
    table_id := table.id
    table_name := table.name
    fields := record.fields
    created_at_source := record.createdTime
    synced_at := now
    embedding := Option.map StoredEmbedding.vec embedding }

/-- Text preprocessing of generateEmbedding: truncate to the first 8000
    characters, then replace every newline by a space. The text is a list
    of characters, matching the character-indexed slice of the source. -/
def processText (text : List Char) : List Char :=
  (text.take 8000).map (fun c => if c = '\n' then ' ' else c)

/-- Run of generateEmbedding against an upstream embedding oracle taking
    the request text to a vector and an optional usage token count (or an
    upstream error). Returns the list of upstream requests issued and the
    result: the vector with tokenCount defaulted to 0, or the error
    rethrown unchanged. -/
def generateEmbeddingRun (oracle : List Char → Except String (List Int × Option Nat))
    (text : List Char) : List (List Char) × Except String EmbeddingResult :=
  match oracle (processText text) with
  | Except.ok v => ([processText text], Except.ok { embedding := v.1, tokenCount := v.2.getD 0 })
  | Except.error e => ([processText text], Except.error e)

/-- Error string pushed by syncTable when one record fails. -/
def syncErrorMsg (recordId msg : String) : String :=
  "Failed to sync record " ++ recordId ++ ": " ++ msg

/-- Oracles and fixed configuration of one sync run: whether records are
    embedded, the embedding service, the Supabase upsert outcome (none for
    success, some message for a constraint violation or other store error;
    the store decides from the record data alone), the base id and the
    timestamp. -/
structure SyncParams where
  embedRecords : Bool
  embedO : String → Except String EmbeddingResult
  upsertO : SyncedRecord → Option String
  baseId : String
  now : String

/-- Outcome of the try block of syncTable for one record: the record data
    that was upserted, or the error message caught and recorded. An
    embedding failure or an upsert error is caught per record. -/
def syncRecordOutcome (P : SyncParams) (table : AirtableTable)
    (record : AirtableRecord) : Except String SyncedRecord :=
  match (if P.embedRecords then
           Except.map (fun res => some res.embedding) (P.embedO (recordToText record table.name))
         else Except.ok none) with
  | Except.error e => Except.error (syncErrorMsg record.id e)
  | Except.ok emb =>
    match P.upsertO (mkRecordData P.baseId table P.now emb record) with
    | some e => Except.error (syncErrorMsg record.id e)
    | none => Except.ok (mkRecordData P.baseId table P.now emb record)

/-- Accumulated state of syncTable: the store contents, the synced counter
    and the error list. -/
structure SyncTableResult where
  store : List SyncedRecord
  synced : Nat
  errors : List String
deriving DecidableEq

/-- One iteration of the record loop of syncTable. -/
def syncTableStep (P : SyncParams) (table : AirtableTable)
    (acc : SyncTableResult) (record : AirtableRecord) : SyncTableResult :=
  match syncRecordOutcome P table record with
  | Except.ok d =>
      { store := upsertRecord acc.store d, synced := acc.synced + 1, errors := acc.errors }
  | Except.error e =>
      { store := acc.store, synced := acc.synced, errors := acc.errors ++ [e] }

/-- The record loop of syncTable over the fetched records. -/
def syncTableRecords (P : SyncParams) (table : AirtableTable)
    (records : List AirtableRecord) (store : List SyncedRecord) : SyncTableResult :=
  records.foldl (syncTableStep P table) { store := store, synced := 0, errors := [] }

/-- syncTable including its outer try around the Airtable fetch: a fetch
    failure yields zero synced records and a single fetch error. -/
def syncTableRun (P : SyncParams) (table : AirtableTable)
    (fetch : Except String (List AirtableRecord)) (store : List SyncedRecord) :
    SyncTableResult :=
  match fetch with
  | Except.error e =>
      { store := store, synced := 0,
        errors := ["Failed to fetch table " ++ table.name ++ ": " ++ e] }
  | Except.ok records => syncTableRecords P table records store

/-- Status of one table entry of SyncResult. -/
inductive TableStatus where
  | success
  | error
deriving DecidableEq

/-- Per-table entry of SyncResult. -/
structure TableReport where
  name : String
  synced : Nat
  status : TableStatus
  firstError : Option String
deriving DecidableEq

/-- Aggregate result of syncAllTables (interface SyncResult). -/
structure SyncResult where
  success : Bool
  tables : List TableReport
  totalRecords : Nat
  errors : List String
deriving DecidableEq

/-- One table of the run: its schema entry and the outcome of fetching all
    of its records from Airtable. -/
structure TableInput where
  table : AirtableTable
  fetch : Except String (List AirtableRecord)

/-- Accumulator of the table loop of syncAllTables. -/
structure SyncAllAcc where
  store : List SyncedRecord
  reports : List TableReport
  total : Nat
  errors : List String

/-- One iteration of the table loop of syncAllTables: sync the table, append
    its report entry (status success exactly when its error list is empty,
    first error if any), and accumulate counts and errors. -/
def syncAllStep (P : SyncParams) (acc : SyncAllAcc) (input : TableInput) : SyncAllAcc :=
  let tr := syncTableRun P input.table input.fetch acc.store
  let report : TableReport :=
    { name := input.table.name
      synced := tr.synced
      status := if tr.errors.length = 0 then TableStatus.success else TableStatus.error
      firstError := tr.errors.head? }
  { store := tr.store
    reports := acc.reports ++ [report]
    total := acc.total + tr.synced
    errors := acc.errors ++ tr.errors }

/-- syncAllTables: on a schema fetch failure the run aborts with success
    false and one Sync failed error; otherwise every listed table is synced
    in order and overall success is set to whether some table has status
    success. Returns the SyncResult and the final store. -/
def syncAllTablesModel (P : SyncParams) (schema : Except String (List TableInput))
    (store : List SyncedRecord) : SyncResult × List SyncedRecord :=
  match schema with
  | Except.error e =>
      ({ success := false, tables := [], totalRecords := 0,
         errors := ["Sync failed: " ++ e] }, store)
  | Except.ok inputs =>
      let acc := inputs.foldl (syncAllStep P)
        { store := store, reports := [], total := 0, errors := [] }
      ({ success := acc.reports.any (fun t => t.status == TableStatus.success),
         tables := acc.reports, totalRecords := acc.total, errors := acc.errors }, acc.store)

/-- Error message of one record of a sync run, independent of the store. -/
def recordErr (P : SyncParams) (table : AirtableTable) (record : AirtableRecord) :
    Option String :=
  match syncRecordOutcome P table record with
  | Except.ok _ => none
  | Except.error e => some e

/-- Whether one record of a sync run succeeds. -/
def recordOk (P : SyncParams) (table : AirtableTable) (record : AirtableRecord) : Bool :=
  match syncRecordOutcome P table record with
  | Except.ok _ => true
  | Except.error _ => false

/-- The record data upserted for one record of a sync run, when it
    succeeds, independent of the store. -/
def recordUpserted (P : SyncParams) (table : AirtableTable) (record : AirtableRecord) :
    Option SyncedRecord :=
  match syncRecordOutcome P table record with
  | Except.ok d => some d
  | Except.error _ => none

/-- Error list of one table of a sync run, independent of the store. -/
def tableErrorsFor (P : SyncParams) (input : TableInput) : List String :=
  match input.fetch with
  | Except.error e => ["Failed to fetch table " ++ input.table.name ++ ": " ++ e]
  | Except.ok records => records.filterMap (recordErr P input.table)

/-- Synced count of one table of a sync run, independent of the store. -/
def tableSyncedFor (P : SyncParams) (input : TableInput) : Nat :=
  match input.fetch with
  | Except.error _ => 0
  | Except.ok records => (records.filter (recordOk P input.table)).length

/-- The report entry of one table, as a function of that table alone. -/
def reportFor (P : SyncParams) (input : TableInput) : TableReport :=
  { name := input.table.name
    synced := tableSyncedFor P input
    status := if (tableErrorsFor P input).length = 0 then TableStatus.success
              else TableStatus.error
    firstError := (tableErrorsFor P input).head? }

/-- Result of reembedTable: the rows of airtable_records for the table after
    the run, the updated counter and the error list. -/
structure ReembedResult where
  rows : List SyncedRecord
  updated : Nat
  errors : List String
deriving DecidableEq

/-- Text rebuilt by reembedTable for one stored row, reconstructing the
    Airtable record from the stored columns. -/
def reembedText (row : SyncedRecord) : String :=
  recordToText
    { id := row.external_id, createdTime := row.created_at_source, fields := row.fields }
    row.table_name

/-- One iteration of the record loop of reembedTable: regenerate the
    embedding and update the row in place, keyed by the row id. The update
    payload passes the whole generateEmbedding result value as the
    embedding column value, exactly as the source does. An embedding or
    update failure is caught per record. -/
def reembedStep (embedO : String → Except String EmbeddingResult)
    (updateO : SyncedRecord → Option String) (now : String)
    (acc : ReembedResult) (row : SyncedRecord) : ReembedResult :=
  match embedO (reembedText row) with
  | Except.error e =>
      { acc with errors := acc.errors ++ ["Failed to re-embed record " ++ row.id ++ ": " ++ e] }
  | Except.ok res =>
      let newRow : SyncedRecord :=
        { row with embedding := some (StoredEmbedding.resObj res), synced_at := now }
      match updateO newRow with
      | some e =>
          { acc with errors := acc.errors ++ ["Failed to re-embed record " ++ row.id ++ ": " ++ e] }
      | none =>
          { rows := acc.rows.map (fun q => if q.id = row.id then newRow else q)
            updated := acc.updated + 1
            errors := acc.errors }

/-- reembedTable over the rows selected for one table. -/
def reembedTableModel (embedO : String → Except String EmbeddingResult)
    (updateO : SyncedRecord → Option String) (now : String)
    (rows : List SyncedRecord) : ReembedResult :=
  rows.foldl (reembedStep embedO updateO now) { rows := rows, updated := 0, errors := [] }

/-- Event types of N8nEvent. -/
inductive EventType where
  | new_document
  | chat_query
  | content_generated
  | meeting_synced
  | airtable_updated
deriving DecidableEq

/-- Endpoint sub-path for an event type (getEndpointForEvent). The general
    fallback path of the source is unreachable for this closed union. -/
def endpointForEvent (t : EventType) : String :=
  match t with
  | EventType.new_document => "/webhook/document"
  | EventType.chat_query => "/webhook/chat"
  | EventType.content_generated => "/webhook/content"
  | EventType.meeting_synced => "/webhook/meeting"
  | EventType.airtable_updated => "/webhook/airtable"

/-- Outbound event payload (createN8nEvent shape). -/
structure N8nEvent where
  type : EventType
  partner_id : String
  data : List (String × FieldValue)
  timestamp : String
deriving DecidableEq

/-- Parsed JSON body of a successful upstream response. -/
structure UpstreamResponse where
  fields : List (String × FieldValue)
deriving DecidableEq

/-- The executionId member of the parsed response, when it is a string. -/
def getExecutionId (resp : UpstreamResponse) : Option String :=
  match resp.fields.lookup "executionId" with
  | some (FieldValue.str s) => some s
  | _ => none

/-- Response column of a webhook_logs row: the upstream body on success, or
    an object carrying the last error message on exhaustion. -/
inductive LogResponse where
  | body (resp : UpstreamResponse)
  | errObj (msg : Option String)
deriving DecidableEq

/-- Status values of a webhook_logs row. -/
inductive WhStatus where
  | pending
  | success
  | error
deriving DecidableEq

/-- Row written to webhook_logs by logWebhook (without id and created_at). -/
structure WebhookLogRow where
  direction : String
  endpoint : String
  event_type : EventType
  payload : N8nEvent
  response : LogResponse
  status : WhStatus
deriving DecidableEq

/-- Return value of N8nClient.trigger (interface N8nTriggerResponse). -/
structure N8nTriggerResponse where
  success : Bool
  executionId : Option String
  error : Option String
deriving DecidableEq

/-- Observable trace of one trigger call: the returned value, the number of
    HTTP attempts issued, the backoff waits in milliseconds performed
    between attempts, and the audit log rows written, in order. -/
structure TriggerTrace where
  result : N8nTriggerResponse
  attempts : Nat
  delaysMs : List Nat
  logs : List WebhookLogRow
deriving DecidableEq

/-- Audit row written after a successful attempt. -/
def successLogRow (url : String) (ev : N8nEvent) (resp : UpstreamResponse) : WebhookLogRow :=
  { direction := "outbound"
    endpoint := url
    event_type := ev.type
    payload := ev
    response := LogResponse.body resp
    status := WhStatus.success }

/-- Audit row written after all attempts are exhausted, carrying the last
    error message. -/
def errorLogRow (url : String) (ev : N8nEvent) (lastError : Option String) : WebhookLogRow :=
  { direction := "outbound"
    endpoint := url
    event_type := ev.type
    payload := ev
    response := LogResponse.errObj lastError
    status := WhStatus.error }

/-- JavaScript expression lastError and message or the Unknown error
    fallback: an absent or empty message falls back. -/
def orUnknown (e : Option String) : String :=
  match e with
  | some m => if m = "" then "Unknown error" else m
  | none => "Unknown error"

/-- The while loop of N8nClient.trigger. The outcome oracle gives each
    attempt number (starting at 1) its HTTP result: the parsed body, or the
    thrown error message (non-ok status or transport error). The second Nat
    is the number of loop iterations left (maxRetries minus attempts made);
    after a failed attempt that is not the last, the loop waits 2 to the
    power of the attempt number, in seconds (milliseconds here). -/
def runAttempts (url : String) (ev : N8nEvent)
    (outcome : Nat → Except String UpstreamResponse) :
    Nat → Nat → Option String → TriggerTrace
  | _, 0, lastError =>
      { result := { success := false, executionId := none, error := some (orUnknown lastError) }
        attempts := 0
        delaysMs := []
        logs := [errorLogRow url ev lastError] }
  | attempt, n + 1, _ =>
      match outcome (attempt + 1) with
      | Except.ok resp =>
          { result := { success := true, executionId := getExecutionId resp, error := none }
            attempts := 1
            delaysMs := []
            logs := [successLogRow url ev resp] }
      | Except.error e =>
          let tail := runAttempts url ev outcome (attempt + 1) n (some e)
          { result := tail.result
            attempts := tail.attempts + 1
            delaysMs := (if 0 < n then [2 ^ (attempt + 1) * 1000] else []) ++ tail.delaysMs
            logs := tail.logs }

/-- N8nClient.trigger: with an unconfigured base URL the call returns the
    configuration error immediately; otherwise the endpoint is appended to
    the base URL and the retry loop runs up to maxRetries attempts. -/
def triggerModel (baseUrl : String) (maxRetries : Nat) (ev : N8nEvent)
    (outcome : Nat → Except String UpstreamResponse) : TriggerTrace :=
  if baseUrl = "" then
    { result := { success := false, executionId := none,
                  error := some "n8n webhook URL not configured" }
      attempts := 0
      delaysMs := []
      logs := [] }
  else
    runAttempts (baseUrl ++ endpointForEvent ev.type) ev outcome 0 maxRetries none

/-- Options of the N8nClient constructor. -/
structure N8nClientOptions where
  timeout : Option Nat
  retries : Option Nat

/-- JavaScript value-or-default with the or operator: an absent or zero
    numeric option falls back to the default. -/
def orDefaultNat (v : Option Nat) (d : Nat) : Nat :=
  match v with
  | some n => if n = 0 then d else n
  | none => d

/-- Configuration fixed by the N8nClient constructor. -/
structure N8nClientState where
  baseUrl : String
  apiKey : Option String
  timeout : Nat
  maxRetries : Nat
deriving DecidableEq

/-- The N8nClient constructor over the two environment variables and the
    options: missing URL leaves an empty base URL, timeout defaults to
    30000 ms and retries to 3. -/
def mkN8nClient (envUrl : Option String) (envKey : Option String)
    (options : N8nClientOptions) : N8nClientState :=
  { baseUrl := envUrl.getD ""
    apiKey := envKey
    timeout := orDefaultNat options.timeout 30000
    maxRetries := orDefaultNat options.retries 3 }

/-- Terminal-logging specification of the retry loop started at a given
    attempt offset with a given iteration budget: exactly one audit row is
    written; on success it is the success row of the responding attempt and
    the returned value carries its execution id; on failure the loop ran
    its whole budget, the row is the error row of the last message, and the
    returned value carries that message. -/
def TriggerLogSpec (url : String) (ev : N8nEvent)
    (outcome : Nat → Except String UpstreamResponse)
    (attempt n : Nat) (lastError : Option String) (t : TriggerTrace) : Prop :=
  t.logs.length = 1 ∧
  (t.result.success = true →
     ∃ resp, outcome (attempt + t.attempts) = Except.ok resp ∧
       t.logs = [successLogRow url ev resp] ∧
       t.result = { success := true, executionId := getExecutionId resp, error := none }) ∧
  (t.result.success = false →
     t.attempts = n ∧
     (1 ≤ n → ∃ e, outcome (attempt + n) = Except.error e ∧
        t.logs = [errorLogRow url ev (some e)] ∧
        t.result = { success := false, executionId := none,
                     error := some (orUnknown (some e)) }) ∧
     (n = 0 → t.logs = [errorLogRow url ev lastError] ∧
        t.result = { success := false, executionId := none,
                     error := some (orUnknown lastError) }))

/-- Chunk returned by retrieveRelevantChunks to the chat route. Similarity
    scores are rationals in place of floats. -/
structure RagChunk where
  id : String
  documentId : String
  documentName : String
  content : String
  chunkIndex : Nat
  similarity : Rat
deriving DecidableEq

/-- Modelled from the spec: formatChunksForContext of src/lib/ai/rag.ts is
    absent from the sources. Per spec section 4.2 step 5, the context is
    the chunks in rank order rendered as a bracketed source name followed
    by the content, joined by blank lines. -/
def formatChunksForContext (chunks : List RagChunk) : String :=
  String.intercalate "\n\n"
    (chunks.map (fun c => "[" ++ c.documentName ++ "]: " ++ c.content))

/-- Citation record returned by formatSourceCitations. -/
structure RagCitation where
  id : String
  documentId : String
  documentName : String
  chunkIndex : Nat
  excerpt : String
  similarity : Rat
deriving DecidableEq

/-- Modelled from the spec: formatSourceCitations of src/lib/ai/rag.ts is
    absent from the sources. Per spec section 4.3, each included chunk maps
    to one citation, excerpting the first 200 characters of its content. -/
def formatSourceCitations (chunks : List RagChunk) : List RagCitation :=
  chunks.map (fun c =>
    { id := c.id
      documentId := c.documentId
      documentName := c.documentName
      chunkIndex := c.chunkIndex
      excerpt := String.mk (c.content.data.take 200)
      similarity := c.similarity })

/-- Citation attached to the chat response (interface SourceCitation as
    populated by the chat route). -/
structure SourceCitation where
  id : String
  type : String
  source_name : String
  source_id : String
  chunk_index : Nat
  excerpt : String
  relevance_score : Rat
  last_updated : String
deriving DecidableEq

/-- The mapping applied by the chat route to each formatted citation. -/
def toSourceCitation (now : String) (c : RagCitation) : SourceCitation :=
  { id := c.id
    type := "document"
    source_name := c.documentName
    source_id := c.documentId
    chunk_index := c.chunkIndex
    excerpt := c.excerpt
    relevance_score := c.similarity
    last_updated := now }

/-- The RAG phase of the chat route POST handler: when RAG is enabled and
    the query is non-empty, the retrieval outcome is consumed inside a
    try/catch; a retrieval error is swallowed and leaves the context empty
    and the citations empty, and so does an empty chunk list. Returns the
    ragContext string and the sourceCitations list. -/
def buildRag (useRAG : Bool) (query : String) (now : String)
    (retrieval : Except String (List RagChunk)) : String × List SourceCitation :=
  if useRAG = true ∧ query ≠ "" then
    match retrieval with
    | Except.error _ => ("", [])
    | Except.ok chunks =>
        if 0 < chunks.length then
          (formatChunksForContext chunks,
           (formatSourceCitations chunks).map (toSourceCitation now))
        else ("", [])
  else ("", [])

/-- System message assembly of the chat route: the RAG context is appended
    to the system prompt after a separator when non-empty, otherwise the
    plain system prompt is used. -/
def mkSystemMessage (sysPrompt ragContext : String) : String :=
  if ragContext = "" then sysPrompt
  else sysPrompt ++ "\n\n---\n\n" ++ ragContext

/-- Fixture: sync parameters with embedding disabled and an always
    successful store. -/
def c2P : SyncParams :=
  { embedRecords := false
    embedO := fun _ => Except.error "unused"
    upsertO := fun _ => none
    baseId := "b1"
    now := "2024-03-01" }

/-- Fixture: two Airtable records with distinct ids. -/
def c2Records : List AirtableRecord :=
  [{ id := "r1", createdTime := "c1", fields := [("Name", FieldValue.str "A")] },
   { id := "r2", createdTime := "c2", fields := [("Name", FieldValue.str "B")] }]

/-- Fixture: a stored row used as an upsert argument. -/
def c2Row : SyncedRecord :=
  mkRecordData "b1" { id := "t1", name := "Projects" } "2024-03-01" none
    { id := "r1", createdTime := "c1", fields := [] }

/-- Fixture: sync parameters whose store rejects the record with external id
    bad and accepts the rest. -/
def c3P : SyncParams :=
  { embedRecords := false
    embedO := fun _ => Except.error "unused"
    upsertO := fun d => if d.external_id = "bad" then some "duplicate key" else none
    baseId := "b1"
    now := "2024-03-01" }

/-- Fixture: a batch of three records of which exactly the middle one
    fails. -/
def c3Records : List AirtableRecord :=
  [{ id := "g1", createdTime := "c1", fields := [] },
   { id := "bad", createdTime := "c2", fields := [] },
   { id := "g2", createdTime := "c3", fields := [] }]

/-- Fixture: the failing table of the run. -/
def c3Input : TableInput :=
  { table := { id := "t1", name := "Projects" }, fetch := Except.ok c3Records }

/-- Fixture: the run syncs the failing table and then one clean table. -/
def c3Inputs : List TableInput :=
  [c3Input,
   { table := { id := "t2", name := "Tasks" }
     fetch := Except.ok [{ id := "g3", createdTime := "c4", fields := [] }] }]

/-- Fixture: a run over one table whose fetch returns no records. -/
def c1Inputs : List TableInput :=
  [{ table := { id := "t1", name := "Projects" }, fetch := Except.ok [] }]

/-- Fixture: sync parameters for the empty-table run, embedding disabled and
    an always successful store. -/
def c1P : SyncParams :=
  { embedRecords := false
    embedO := fun _ => Except.error "unused"
    upsertO := fun _ => none
    baseId := "b1"
    now := "2024-03-01" }

/-- Fixture: webhook event. -/
def c5Ev : N8nEvent :=
  { type := EventType.chat_query
    partner_id := "p1"
    data := [("message", FieldValue.str "hi")]
    timestamp := "2024-03-01" }

/-- Fixture: webhook attempts where attempt 1 fails and attempt 2 returns a
    body carrying an execution id. -/
def c5Out : Nat → Except String UpstreamResponse :=
  fun i => if i = 1 then Except.error "status 500"
           else Except.ok { fields := [("executionId", FieldValue.str "X9")] }

/-- Fixture: a stored Airtable row awaiting re-embedding. -/
def c7Row : SyncedRecord :=
  { id := "b1_t1_recA"
    external_id := "recA"
    source := "airtable"
    base_id := "b1"
    table_id := "t1"
    table_name := "Partners"
    fields := [("Name", FieldValue.str "Acme")]
    created_at_source := "2024-01-01"
    synced_at := "2024-01-02"
    embedding := none }

/-- Fixture: embedding service returning the vector one two three with a
    token count of five. -/
def c7EmbedO : String → Except String EmbeddingResult :=
  fun _ => Except.ok { embedding := [1, 2, 3], tokenCount := 5 }

/-- Fixture: a store whose updates always succeed. -/
def c7UpdateO : SyncedRecord → Option String := fun _ => none

theorem upsertRecord_of_mem_key {store : List SyncedRecord} {r : SyncedRecord}
    (h : store.any (fun s => s.key == r.key) = true) :
    upsertRecord store r = store.map (fun s => if s.key = r.key then r else s) := by
  simp [upsertRecord, h]

theorem upsertRecord_of_not_mem_key {store : List SyncedRecord} {r : SyncedRecord}
    (h : ¬ store.any (fun s => s.key == r.key) = true) :
    upsertRecord store r = store ++ [r] := by
  simp only [upsertRecord, if_neg h]

/-- A key present in the store stays present after any upsert. -/
theorem any_key_upsertRecord (store : List SyncedRecord) (r q : SyncedRecord)
    (h : store.any (fun s => s.key == q.key) = true) :
    (upsertRecord store r).any (fun s => s.key == q.key) = true := by
  by_cases hmem : store.any (fun s => s.key == r.key) = true
  · rw [upsertRecord_of_mem_key hmem]
    simp only [List.any_eq_true, beq_iff_eq] at h ⊢
    obtain ⟨s, hs, hk⟩ := h
    by_cases hsk : s.key = r.key
    · exact ⟨r, List.mem_map.2 ⟨s, hs, by simp [hsk]⟩, by rw [← hsk, hk]⟩
    · exact ⟨s, List.mem_map.2 ⟨s, hs, by simp [hsk]⟩, hk⟩
  · rw [upsertRecord_of_not_mem_key hmem]
    simp only [List.any_eq_true] at h ⊢
    obtain ⟨s, hs, hk⟩ := h
    exact ⟨s, List.mem_append_left _ hs, hk⟩

/-- After upserting r, the key of r is present. -/
theorem any_key_upsertRecord_self (store : List SyncedRecord) (r : SyncedRecord) :
    (upsertRecord store r).any (fun s => s.key == r.key) = true := by
  by_cases hmem : store.any (fun s => s.key == r.key) = true
  · rw [upsertRecord_of_mem_key hmem]
    simp only [List.any_eq_true, beq_iff_eq] at hmem ⊢
    obtain ⟨s, hs, hk⟩ := hmem
    exact ⟨r, List.mem_map.2 ⟨s, hs, by simp [hk]⟩, rfl⟩
  · rw [upsertRecord_of_not_mem_key hmem]
    simp

/-- After upserting r, every stored row carrying the key of r is r itself. -/
theorem upsertRecord_key_eq (store : List SyncedRecord) (r : SyncedRecord) :
    ∀ e ∈ upsertRecord store r, e.key = r.key → e = r := by
  intro e he hk
  by_cases hmem : store.any (fun s => s.key == r.key) = true
  · rw [upsertRecord_of_mem_key hmem] at he
    obtain ⟨s, _, hs⟩ := List.mem_map.1 he
    by_cases hsk : s.key = r.key
    · rw [if_pos hsk] at hs; exact hs.symm
    · rw [if_neg hsk] at hs; rw [← hs] at hk; exact absurd hk hsk
  · rw [upsertRecord_of_not_mem_key hmem] at he
    rcases List.mem_append.1 he with hin | hin
    · exfalso
      exact hmem (List.any_eq_true.2 ⟨e, hin, by simp [hk]⟩)
    · simpa using hin

theorem list_map_eq_self {α : Type} (f : α → α) :
    ∀ (l : List α), (∀ e ∈ l, f e = e) → l.map f = l := by
  intro l
  induction l with
  | nil => intro _; rfl
  | cons a t ih =>
      intro h
      simp only [List.map_cons]
      rw [h a (List.mem_cons_self a t), ih (fun e he => h e (List.mem_cons_of_mem a he))]

/-- Upserting a row whose key is present and whose every key-match already
    equals the row is a no-op. -/
theorem upsertRecord_eq_self (store : List SyncedRecord) (r : SyncedRecord)
    (hmem : store.any (fun s => s.key == r.key) = true)
    (hall : ∀ e ∈ store, e.key = r.key → e = r) :
    upsertRecord store r = store := by
  rw [upsertRecord_of_mem_key hmem]
  apply list_map_eq_self
  intro e he
  by_cases hk : e.key = r.key
  · rw [if_pos hk]; exact (hall e he hk).symm
  · rw [if_neg hk]

/-- Idempotence of the composite-key upsert: upserting the same record twice
    yields the same store as upserting it once. -/
theorem upsertRecord_idem (store : List SyncedRecord) (r : SyncedRecord) :
    upsertRecord (upsertRecord store r) r = upsertRecord store r :=
  upsertRecord_eq_self _ r (any_key_upsertRecord_self store r) (upsertRecord_key_eq store r)

/-- A present key stays present along a fold of upserts. -/
theorem foldl_upsert_preserves_any_key (recs : List SyncedRecord) :
    ∀ (store : List SyncedRecord) (q : SyncedRecord),
      store.any (fun s => s.key == q.key) = true →
      (recs.foldl upsertRecord store).any (fun s => s.key == q.key) = true := by
  induction recs with
  | nil => intro store q h; simpa using h
  | cons c t ih =>
      intro store q h
      simpa using ih (upsertRecord store c) q (any_key_upsertRecord store c q h)

/-- After a fold of upserts, the key of every upserted record is present. -/
theorem foldl_upsert_any_key_of_mem (recs : List SyncedRecord) :
    ∀ (r : SyncedRecord), r ∈ recs → ∀ (store : List SyncedRecord),
      (recs.foldl upsertRecord store).any (fun s => s.key == r.key) = true := by
  induction recs with
  | nil => intro r hr; cases hr
  | cons c t ih =>
      intro r hr store
      rcases List.mem_cons.1 hr with rfl | hmem
      · simpa using foldl_upsert_preserves_any_key t (upsertRecord store r) r
          (any_key_upsertRecord_self store r)
      · simpa using ih r hmem (upsertRecord store c)

/-- One upsert preserves the property that every row carrying a fixed key
    equals a fixed row, provided the upserted record respects it. -/
theorem upsert_preserves_key_fixed (store : List SyncedRecord) (x : SyncedRecord)
    (k : SyncKey) (c : SyncedRecord)
    (hstore : ∀ e ∈ store, e.key = k → e = c) (hx : x.key = k → x = c) :
    ∀ e ∈ upsertRecord store x, e.key = k → e = c := by
  intro e he hk
  by_cases hmem : store.any (fun s => s.key == x.key) = true
  · rw [upsertRecord_of_mem_key hmem] at he
    obtain ⟨s, hs, hse⟩ := List.mem_map.1 he
    by_cases hsk : s.key = x.key
    · rw [if_pos hsk] at hse
      rw [← hse] at hk ⊢
      exact hx hk
    · rw [if_neg hsk] at hse
      rw [← hse] at hk ⊢
      exact hstore s hs hk
  · rw [upsertRecord_of_not_mem_key hmem] at he
    rcases List.mem_append.1 he with hin | hin
    · exact hstore e hin hk
    · have : e = x := by simpa using hin
      rw [this] at hk ⊢
      exact hx hk

/-- A fold of upserts preserves the fixed-key property, provided every
    folded record respects it. -/
theorem foldl_upsert_preserves_key_fixed (k : SyncKey) (c : SyncedRecord) :
    ∀ (recs : List SyncedRecord), (∀ r ∈ recs, r.key = k → r = c) →
      ∀ (store : List SyncedRecord), (∀ e ∈ store, e.key = k → e = c) →
        ∀ e ∈ recs.foldl upsertRecord store, e.key = k → e = c := by
  intro recs
  induction recs with
  | nil => intro _ store hstore; simpa using hstore
  | cons x t ih =>
      intro hrecs store hstore
      have hx : x.key = k → x = c := hrecs x (List.mem_cons_self x t)
      have ht : ∀ r ∈ t, r.key = k → r = c := fun r hr => hrecs r (List.mem_cons_of_mem x hr)
      intro e he
      exact ih ht (upsertRecord store x) (upsert_preserves_key_fixed store x k c hstore hx) e
        (by simpa using he)

/-- With pairwise-distinct keys, after a fold of upserts every stored row
    carrying the key of a folded record equals that record. -/
theorem foldl_upsert_key_val :
    ∀ (recs : List SyncedRecord), (recs.map SyncedRecord.key).Nodup →
      ∀ r ∈ recs, ∀ (store : List SyncedRecord),
        ∀ e ∈ recs.foldl upsertRecord store, e.key = r.key → e = r := by
  intro recs
  induction recs with
  | nil => intro _ r hr; cases hr
  | cons c t ih =>
      intro hnodup r hr store e he hk
      have h1 : (SyncedRecord.key c :: t.map SyncedRecord.key).Nodup := by
        simpa using hnodup
      rcases List.mem_cons.1 hr with rfl | hmem
      · have hhead : SyncedRecord.key r ∉ t.map SyncedRecord.key := (List.nodup_cons.1 h1).1
        have hvac : ∀ x ∈ t, x.key = r.key → x = r := by
          intro x hx hxk
          exact absurd (List.mem_map.2 ⟨x, hx, hxk⟩) hhead
        exact foldl_upsert_preserves_key_fixed r.key r t hvac (upsertRecord store r)
          (upsertRecord_key_eq store r) e (by simpa using he) hk
      · have htail : (t.map SyncedRecord.key).Nodup := (List.nodup_cons.1 h1).2
        exact ih htail r hmem (upsertRecord store c) e (by simpa using he) hk

/-- A fold of upserts that fixes the store pointwise fixes it globally. -/
theorem foldl_upsert_fixpoint :
    ∀ (recs : List SyncedRecord) (t : List SyncedRecord),
      (∀ r ∈ recs, upsertRecord t r = t) → recs.foldl upsertRecord t = t := by
  intro recs
  induction recs with
  | nil => intro t _; rfl
  | cons c s ih =>
      intro t h
      simp only [List.foldl_cons]
      rw [h c (List.mem_cons_self c s)]
      exact ih t (fun r hr => h r (List.mem_cons_of_mem c hr))

/-- Folding the same records (with pairwise-distinct composite keys) twice
    over the store yields the same store as folding them once. -/
theorem foldl_upsert_idem (recs : List SyncedRecord) (store : List SyncedRecord)
    (hnodup : (recs.map SyncedRecord.key).Nodup) :
    recs.foldl upsertRecord (recs.foldl upsertRecord store) = recs.foldl upsertRecord store := by
  apply foldl_upsert_fixpoint
  intro r hr
  exact upsertRecord_eq_self _ r (foldl_upsert_any_key_of_mem recs r hr store)
    (foldl_upsert_key_val recs hnodup r hr store)

/-- The conflict key of a successfully built record is its Airtable record
    id together with the base and table ids. -/
theorem recordUpserted_key (P : SyncParams) (table : AirtableTable)
    (r : AirtableRecord) (d : SyncedRecord)
    (h : recordUpserted P table r = some d) :
    d.key = { external_id := r.id, base_id := P.baseId, table_id := table.id } := by
  have hout : syncRecordOutcome P table r = Except.ok d := by
    unfold recordUpserted at h
    cases ho : syncRecordOutcome P table r with
    | ok x =>
        rw [ho] at h
        simp only [Option.some.injEq] at h
        rw [h]
    | error e => rw [ho] at h; simp at h
  unfold syncRecordOutcome at hout
  split at hout
  · exact absurd hout (by simp)
  · split at hout
    · exact absurd hout (by simp)
    · injection hout with h2
      rw [← h2]
      rfl

/-- Distinct Airtable record ids give distinct conflict keys to the
    successfully upserted records of one table sync. -/
theorem upserted_keys_nodup (P : SyncParams) (table : AirtableTable) :
    ∀ (records : List AirtableRecord), (records.map AirtableRecord.id).Nodup →
      ((records.filterMap (recordUpserted P table)).map SyncedRecord.key).Nodup := by
  intro records
  induction records with
  | nil => intro _; simp
  | cons r t ih =>
      intro h
      have h1 : (r.id :: t.map AirtableRecord.id).Nodup := by simpa using h
      have hhead : r.id ∉ t.map AirtableRecord.id := (List.nodup_cons.1 h1).1
      have htail : (t.map AirtableRecord.id).Nodup := (List.nodup_cons.1 h1).2
      cases hf : recordUpserted P table r with
      | none => simpa [List.filterMap_cons, hf] using ih htail
      | some d =>
          have hstep : (r :: t).filterMap (recordUpserted P table)
              = d :: t.filterMap (recordUpserted P table) := by
            simp [List.filterMap_cons, hf]
          rw [hstep, List.map_cons]
          refine List.nodup_cons.2 ⟨?_, ih htail⟩
          intro hmem
          obtain ⟨d', hd', hk⟩ := List.mem_map.1 hmem
          obtain ⟨r', hr', hfr'⟩ := List.mem_filterMap.1 hd'
          have k1 := recordUpserted_key P table r d hf
          have k2 := recordUpserted_key P table r' d' hfr'
          have h3 := k2.symm.trans (hk.trans k1)
          have hid : r'.id = r.id := congrArg SyncKey.external_id h3
          exact hhead (List.mem_map.2 ⟨r', hr', hid⟩)

/-- Store contents after the record loop of syncTable: the successfully
    built records, upserted in order. -/
theorem syncTable_foldl_store (P : SyncParams) (table : AirtableTable) :
    ∀ (records : List AirtableRecord) (acc : SyncTableResult),
      (records.foldl (syncTableStep P table) acc).store =
        (records.filterMap (recordUpserted P table)).foldl upsertRecord acc.store := by
  intro records
  induction records with
  | nil => intro acc; rfl
  | cons r t ih =>
      intro acc
      simp only [List.foldl_cons]
      cases h : syncRecordOutcome P table r with
      | ok d =>
          have hf : recordUpserted P table r = some d := by simp [recordUpserted, h]
          have hstep : syncTableStep P table acc r =
              { store := upsertRecord acc.store d, synced := acc.synced + 1,
                errors := acc.errors } := by
            simp [syncTableStep, h]
          rw [hstep, ih]
          simp [List.filterMap_cons, hf]
      | error e =>
          have hf : recordUpserted P table r = none := by simp [recordUpserted, h]
          have hstep : syncTableStep P table acc r =
              { store := acc.store, synced := acc.synced, errors := acc.errors ++ [e] } := by
            simp [syncTableStep, h]
          rw [hstep, ih]
          simp [List.filterMap_cons, hf]

/-- Synced counter after the record loop: the number of records whose sync
    succeeded, on top of the accumulator. -/
theorem syncTable_foldl_synced (P : SyncParams) (table : AirtableTable) :
    ∀ (records : List AirtableRecord) (acc : SyncTableResult),
      (records.foldl (syncTableStep P table) acc).synced =
        acc.synced + (records.filter (recordOk P table)).length := by
  intro records
  induction records with
  | nil => intro acc; simp
  | cons r t ih =>
      intro acc
      simp only [List.foldl_cons]
      cases h : syncRecordOutcome P table r with
      | ok d =>
          have hok : recordOk P table r = true := by simp [recordOk, h]
          have hstep : syncTableStep P table acc r =
              { store := upsertRecord acc.store d, synced := acc.synced + 1,
                errors := acc.errors } := by
            simp [syncTableStep, h]
          rw [hstep, ih]
          simp [List.filter_cons, hok]
          omega
      | error e =>
          have hok : recordOk P table r = false := by simp [recordOk, h]
          have hstep : syncTableStep P table acc r =
              { store := acc.store, synced := acc.synced, errors := acc.errors ++ [e] } := by
            simp [syncTableStep, h]
          rw [hstep, ih]
          simp [List.filter_cons, hok]

/-- Error list after the record loop: one caught message per failed record,
    in order, appended to the accumulator. -/
theorem syncTable_foldl_errors (P : SyncParams) (table : AirtableTable) :
    ∀ (records : List AirtableRecord) (acc : SyncTableResult),
      (records.foldl (syncTableStep P table) acc).errors =
        acc.errors ++ records.filterMap (recordErr P table) := by
  intro records
  induction records with
  | nil => intro acc; simp
  | cons r t ih =>
      intro acc
      simp only [List.foldl_cons]
      cases h : syncRecordOutcome P table r with
      | ok d =>
          have he : recordErr P table r = none := by simp [recordErr, h]
          have hstep : syncTableStep P table acc r =
              { store := upsertRecord acc.store d, synced := acc.synced + 1,
                errors := acc.errors } := by
            simp [syncTableStep, h]
          rw [hstep, ih]
          simp [List.filterMap_cons, he]
      | error e =>
          have he : recordErr P table r = some e := by simp [recordErr, h]
          have hstep : syncTableStep P table acc r =
              { store := acc.store, synced := acc.synced, errors := acc.errors ++ [e] } := by
            simp [syncTableStep, h]
          rw [hstep, ih]
          simp [List.filterMap_cons, he]

theorem syncTableRecords_store (P : SyncParams) (table : AirtableTable)
    (records : List AirtableRecord) (store : List SyncedRecord) :
    (syncTableRecords P table records store).store =
      (records.filterMap (recordUpserted P table)).foldl upsertRecord store :=
  syncTable_foldl_store P table records { store := store, synced := 0, errors := [] }

theorem syncTableRecords_synced (P : SyncParams) (table : AirtableTable)
    (records : List AirtableRecord) (store : List SyncedRecord) :
    (syncTableRecords P table records store).synced =
      (records.filter (recordOk P table)).length := by
  have := syncTable_foldl_synced P table records { store := store, synced := 0, errors := [] }
  simpa [syncTableRecords] using this

theorem syncTableRecords_errors (P : SyncParams) (table : AirtableTable)
    (records : List AirtableRecord) (store : List SyncedRecord) :
    (syncTableRecords P table records store).errors =
      records.filterMap (recordErr P table) := by
  have := syncTable_foldl_errors P table records { store := store, synced := 0, errors := [] }
  simpa [syncTableRecords] using this

/-- C2: the upsert is keyed by the composite external id, base id and table
    id, upserting the same record twice equals upserting it once, and
    running the table sync twice over an unchanged fetched record list
    (with its distinct Airtable record ids) leaves the store exactly as one
    run does: the re-sync updates rows in place and never duplicates. -/
theorem sync_upsert_idempotent (P : SyncParams) (table : AirtableTable)
    (records : List AirtableRecord) (store s : List SyncedRecord) (r : SyncedRecord)
    (hids : (records.map AirtableRecord.id).Nodup) :
    upsertRecord (upsertRecord s r) r = upsertRecord s r ∧
    (syncTableRecords P table records (syncTableRecords P table records store).store).store
      = (syncTableRecords P table records store).store := by
  refine ⟨upsertRecord_idem s r, ?_⟩
  rw [syncTableRecords_store, syncTableRecords_store]
  exact foldl_upsert_idem _ store (upserted_keys_nodup P table records hids)

/-- Witness for C2 at a concrete two-record table. -/
theorem sync_upsert_idempotent_witness :
    upsertRecord (upsertRecord [] c2Row) c2Row = upsertRecord [] c2Row ∧
    (syncTableRecords c2P { id := "t1", name := "Projects" } c2Records
        (syncTableRecords c2P { id := "t1", name := "Projects" } c2Records []).store).store
      = (syncTableRecords c2P { id := "t1", name := "Projects" } c2Records []).store :=
  sync_upsert_idempotent c2P { id := "t1", name := "Projects" } c2Records [] [] c2Row
    (by decide)

/-- Synced count of syncTable is independent of the store contents. -/
theorem syncTableRun_synced (P : SyncParams) (input : TableInput)
    (store : List SyncedRecord) :
    (syncTableRun P input.table input.fetch store).synced = tableSyncedFor P input := by
  obtain ⟨table, fetch⟩ := input
  cases fetch with
  | error e => rfl
  | ok records => simpa [syncTableRun, tableSyncedFor] using
      syncTableRecords_synced P table records store

/-- Error list of syncTable is independent of the store contents. -/
theorem syncTableRun_errors (P : SyncParams) (input : TableInput)
    (store : List SyncedRecord) :
    (syncTableRun P input.table input.fetch store).errors = tableErrorsFor P input := by
  obtain ⟨table, fetch⟩ := input
  cases fetch with
  | error e => rfl
  | ok records => simpa [syncTableRun, tableErrorsFor] using
      syncTableRecords_errors P table records store

/-- Each table-loop iteration appends exactly the report of its own table,
    whatever the accumulated store is. -/
theorem syncAllStep_reports (P : SyncParams) (acc : SyncAllAcc) (input : TableInput) :
    (syncAllStep P acc input).reports = acc.reports ++ [reportFor P input] := by
  simp [syncAllStep, reportFor, syncTableRun_synced P input acc.store,
    syncTableRun_errors P input acc.store]

/-- The table loop produces one report per table, each a function of that
    table alone. -/
theorem syncAll_foldl_reports (P : SyncParams) :
    ∀ (inputs : List TableInput) (acc : SyncAllAcc),
      (inputs.foldl (syncAllStep P) acc).reports = acc.reports ++ inputs.map (reportFor P) := by
  intro inputs
  induction inputs with
  | nil => intro acc; simp
  | cons i t ih =>
      intro acc
      simp only [List.foldl_cons, List.map_cons]
      rw [ih, syncAllStep_reports]
      simp

/-- The tables of a sync run are the reports of its inputs, in order. -/
theorem syncAll_tables_eq (P : SyncParams) (inputs : List TableInput)
    (store : List SyncedRecord) :
    (syncAllTablesModel P (Except.ok inputs) store).1.tables = inputs.map (reportFor P) := by
  simpa [syncAllTablesModel] using
    syncAll_foldl_reports P inputs { store := store, reports := [], total := 0, errors := [] }

/-- C1 amended: overall success is true exactly when at least one table of
    the run finished with an empty error list (status success), regardless
    of how many records it synced. -/
theorem syncAll_success_iff (P : SyncParams) (inputs : List TableInput)
    (store : List SyncedRecord) :
    (syncAllTablesModel P (Except.ok inputs) store).1.success = true ↔
      ∃ input ∈ inputs, tableErrorsFor P input = [] := by
  have hrep := syncAll_foldl_reports P inputs
    { store := store, reports := [], total := 0, errors := [] }
  simp only [syncAllTablesModel]
  rw [hrep]
  simp only [List.nil_append, List.any_eq_true, List.mem_map]
  constructor
  · rintro ⟨report, ⟨input, hmem, rfl⟩, hstat⟩
    refine ⟨input, hmem, ?_⟩
    by_cases hlen : (tableErrorsFor P input).length = 0
    · exact List.length_eq_zero.1 hlen
    · exfalso
      simp [reportFor, if_neg hlen] at hstat
      exact hlen (by simp [hstat])
  · rintro ⟨input, hmem, hnil⟩
    refine ⟨reportFor P input, ⟨input, hmem, rfl⟩, ?_⟩
    simp [reportFor, hnil]

/-- C1 counterexample: a run over one table whose fetch returns zero records
    reports overall success although no table synced any record, refuting
    success iff some table synced at least one record. -/
theorem syncAll_success_counterexample :
    ¬ (((syncAllTablesModel c1P (Except.ok c1Inputs) []).1.success = true) ↔
        ∃ t ∈ (syncAllTablesModel c1P (Except.ok c1Inputs) []).1.tables, 0 < t.synced) := by
  decide

theorem length_filter_add_not {α : Type} (p : α → Bool) :
    ∀ (l : List α), (l.filter p).length + (l.filter (fun x => !(p x))).length = l.length := by
  intro l
  induction l with
  | nil => rfl
  | cons a t ih => cases h : p a <;> simp [List.filter_cons, h] <;> omega

/-- One caught error message per failed record. -/
theorem errs_length_eq (P : SyncParams) (table : AirtableTable) :
    ∀ (records : List AirtableRecord),
      (records.filterMap (recordErr P table)).length =
        (records.filter (fun r => !(recordOk P table r))).length := by
  intro records
  induction records with
  | nil => rfl
  | cons r t ih =>
      cases h : syncRecordOutcome P table r with
      | ok d => simp [List.filterMap_cons, List.filter_cons, recordErr, recordOk, h, ih]
      | error e => simp [List.filterMap_cons, List.filter_cons, recordErr, recordOk, h, ih]

/-- C3: when exactly one of the N fetched records of a table fails, that
    table finishes with N minus one synced records and exactly one error,
    and the run still reports every table of the schema from its own
    outcome alone: the failure aborts neither the remaining records nor
    the remaining tables. -/
theorem sync_partial_failure_isolation (P : SyncParams) (inputs : List TableInput)
    (store : List SyncedRecord) (input : TableInput) (records : List AirtableRecord)
    (hmem : input ∈ inputs) (hfetch : input.fetch = Except.ok records)
    (hone : (records.filter (fun r => !(recordOk P input.table r))).length = 1) :
    (syncAllTablesModel P (Except.ok inputs) store).1.tables = inputs.map (reportFor P) ∧
    reportFor P input ∈ (syncAllTablesModel P (Except.ok inputs) store).1.tables ∧
    (reportFor P input).synced = records.length - 1 ∧
    (tableErrorsFor P input).length = 1 := by
  obtain ⟨table, fetch⟩ := input
  have hfetch2 : fetch = Except.ok records := hfetch
  subst hfetch2
  have herr : (tableErrorsFor P ⟨table, Except.ok records⟩).length = 1 := by
    show (records.filterMap (recordErr P table)).length = 1
    rw [errs_length_eq P table records]
    exact hone
  have hsync : (reportFor P ⟨table, Except.ok records⟩).synced = records.length - 1 := by
    show (records.filter (recordOk P table)).length = records.length - 1
    have hlen := length_filter_add_not (recordOk P table) records
    have hone2 : (records.filter (fun r => !(recordOk P table r))).length = 1 := hone
    omega
  have htab := syncAll_tables_eq P inputs store
  exact ⟨htab, htab ▸ List.mem_map.2 ⟨⟨table, Except.ok records⟩, hmem, rfl⟩, hsync, herr⟩

/-- Witness for C3: a three-record table whose middle record fails, followed
    by a clean table. -/
theorem sync_partial_failure_isolation_witness :
    (syncAllTablesModel c3P (Except.ok c3Inputs) []).1.tables = c3Inputs.map (reportFor c3P) ∧
    reportFor c3P c3Input ∈ (syncAllTablesModel c3P (Except.ok c3Inputs) []).1.tables ∧
    (reportFor c3P c3Input).synced = c3Records.length - 1 ∧
    (tableErrorsFor c3P c3Input).length = 1 :=
  sync_partial_failure_isolation c3P c3Inputs [] c3Input c3Records
    (List.mem_cons_self _ _) rfl (by decide)

theorem runAttempts_zero (url : String) (ev : N8nEvent)
    (outcome : Nat → Except String UpstreamResponse) (attempt : Nat)
    (lastError : Option String) :
    runAttempts url ev outcome attempt 0 lastError =
      { result := { success := false, executionId := none, error := some (orUnknown lastError) }
        attempts := 0
        delaysMs := []
        logs := [errorLogRow url ev lastError] } := rfl

theorem runAttempts_succ_ok (url : String) (ev : N8nEvent)
    (outcome : Nat → Except String UpstreamResponse) (attempt n : Nat)
    (lastError : Option String) (resp : UpstreamResponse)
    (h : outcome (attempt + 1) = Except.ok resp) :
    runAttempts url ev outcome attempt (n + 1) lastError =
      { result := { success := true, executionId := getExecutionId resp, error := none }
        attempts := 1
        delaysMs := []
        logs := [successLogRow url ev resp] } := by
  simp [runAttempts, h]

theorem runAttempts_succ_error (url : String) (ev : N8nEvent)
    (outcome : Nat → Except String UpstreamResponse) (attempt n : Nat)
    (lastError : Option String) (e : String)
    (h : outcome (attempt + 1) = Except.error e) :
    runAttempts url ev outcome attempt (n + 1) lastError =
      { result := (runAttempts url ev outcome (attempt + 1) n (some e)).result
        attempts := (runAttempts url ev outcome (attempt + 1) n (some e)).attempts + 1
        delaysMs := (if 0 < n then [2 ^ (attempt + 1) * 1000] else []) ++
          (runAttempts url ev outcome (attempt + 1) n (some e)).delaysMs
        logs := (runAttempts url ev outcome (attempt + 1) n (some e)).logs } := by
  simp [runAttempts, h]

/-- Attempts are bounded by the remaining budget, at least one attempt runs
    on a positive budget, and the waits are exactly the backoff of each
    failed non-final attempt. -/
theorem runAttempts_bounds (url : String) (ev : N8nEvent)
    (outcome : Nat → Except String UpstreamResponse) :
    ∀ (n attempt : Nat) (lastError : Option String),
      (runAttempts url ev outcome attempt n lastError).attempts ≤ n ∧
      (1 ≤ n → 1 ≤ (runAttempts url ev outcome attempt n lastError).attempts) ∧
      (runAttempts url ev outcome attempt n lastError).delaysMs =
        (List.range' (attempt + 1)
            ((runAttempts url ev outcome attempt n lastError).attempts - 1)).map
          (fun i => 2 ^ i * 1000) := by
  intro n
  induction n with
  | zero =>
      intro attempt lastError
      rw [runAttempts_zero]
      exact ⟨Nat.le_refl 0, fun h => absurd h (by omega), by simp⟩
  | succ n ih =>
      intro attempt lastError
      cases h : outcome (attempt + 1) with
      | ok resp =>
          rw [runAttempts_succ_ok url ev outcome attempt n lastError resp h]
          refine ⟨?_, fun _ => ?_, ?_⟩
          · show 1 ≤ n + 1
            omega
          · show (1 : Nat) ≤ 1
            omega
          · show ([] : List Nat) =
              (List.range' (attempt + 1) (1 - 1)).map (fun i => 2 ^ i * 1000)
            simp
      | error e =>
          rw [runAttempts_succ_error url ev outcome attempt n lastError e h]
          obtain ⟨ih1, ih2, ih3⟩ := ih (attempt + 1) (some e)
          refine ⟨?_, fun _ => ?_, ?_⟩
          · show (runAttempts url ev outcome (attempt + 1) n (some e)).attempts + 1 ≤ n + 1
            omega
          · show 1 ≤ (runAttempts url ev outcome (attempt + 1) n (some e)).attempts + 1
            omega
          · show (if 0 < n then [2 ^ (attempt + 1) * 1000] else []) ++
                (runAttempts url ev outcome (attempt + 1) n (some e)).delaysMs =
              (List.range' (attempt + 1)
                  ((runAttempts url ev outcome (attempt + 1) n (some e)).attempts + 1 - 1)).map
                (fun i => 2 ^ i * 1000)
            by_cases hn : 0 < n
            · have h1 : 1 ≤ (runAttempts url ev outcome (attempt + 1) n (some e)).attempts :=
                ih2 hn
              obtain ⟨m, hm⟩ : ∃ m,
                  (runAttempts url ev outcome (attempt + 1) n (some e)).attempts = m + 1 :=
                ⟨(runAttempts url ev outcome (attempt + 1) n (some e)).attempts - 1, by omega⟩
              rw [if_pos hn, ih3, hm]
              simp [List.range'_succ]
            · have hn0 : n = 0 := by omega
              subst hn0
              rw [if_neg hn, runAttempts_zero]
              simp

/-- The retry loop satisfies the terminal-logging specification. -/
theorem runAttempts_logs (url : String) (ev : N8nEvent)
    (outcome : Nat → Except String UpstreamResponse) :
    ∀ (n attempt : Nat) (lastError : Option String),
      TriggerLogSpec url ev outcome attempt n lastError
        (runAttempts url ev outcome attempt n lastError) := by
  intro n
  induction n with
  | zero =>
      intro attempt lastError
      rw [runAttempts_zero]
      refine ⟨rfl, ?_, ?_⟩
      · intro hcontra; simp at hcontra
      · intro _
        exact ⟨rfl, fun hcontra => absurd hcontra (by omega), fun _ => ⟨rfl, rfl⟩⟩
  | succ n ih =>
      intro attempt lastError
      cases h : outcome (attempt + 1) with
      | ok resp =>
          rw [runAttempts_succ_ok url ev outcome attempt n lastError resp h]
          refine ⟨rfl, ?_, ?_⟩
          · intro _
            exact ⟨resp, by simpa using h, rfl, rfl⟩
          · intro hcontra; simp at hcontra
      | error e =>
          rw [runAttempts_succ_error url ev outcome attempt n lastError e h]
          obtain ⟨ih1, ih2, ih3⟩ := ih (attempt + 1) (some e)
          refine ⟨by simpa using ih1, ?_, ?_⟩
          · intro hsucc
            have hs : (runAttempts url ev outcome (attempt + 1) n (some e)).result.success
                = true := by simpa using hsucc
            obtain ⟨resp, hr1, hr2, hr3⟩ := ih2 hs
            refine ⟨resp, ?_, by simpa using hr2, by simpa using hr3⟩
            show outcome (attempt +
              ((runAttempts url ev outcome (attempt + 1) n (some e)).attempts + 1))
                = Except.ok resp
            rw [show attempt +
                ((runAttempts url ev outcome (attempt + 1) n (some e)).attempts + 1)
              = (attempt + 1) +
                (runAttempts url ev outcome (attempt + 1) n (some e)).attempts from by omega]
            exact hr1
          · intro hfail
            have hf : (runAttempts url ev outcome (attempt + 1) n (some e)).result.success
                = false := by simpa using hfail
            obtain ⟨ha, hb, hc⟩ := ih3 hf
            refine ⟨by simp [ha], ?_, ?_⟩
            · intro _
              by_cases hn : 1 ≤ n
              · obtain ⟨e2, h1, h2, h3⟩ := hb hn
                refine ⟨e2, ?_, by simpa using h2, by simpa using h3⟩
                rw [show attempt + (n + 1) = (attempt + 1) + n from by omega]
                exact h1
              · have hn0 : n = 0 := by omega
                subst hn0
                obtain ⟨hl, hr⟩ := hc rfl
                refine ⟨e, ?_, by simpa using hl, by simpa using hr⟩
                simpa using h
            · intro hcontra; simp at hcontra

/-- C4: for every trigger call, after a failed attempt i that is not the
    final one the dispatcher waits exactly 2 to the power of i seconds
    (2 ^ i * 1000 ms), no wait follows the final attempt, the number of
    attempts never exceeds maxRetries, and the constructor default for
    maxRetries is 3. -/
theorem webhook_backoff (baseUrl : String) (maxRetries : Nat) (ev : N8nEvent)
    (outcome : Nat → Except String UpstreamResponse) :
    (triggerModel baseUrl maxRetries ev outcome).attempts ≤ maxRetries ∧
    (triggerModel baseUrl maxRetries ev outcome).delaysMs =
      (List.range' 1 ((triggerModel baseUrl maxRetries ev outcome).attempts - 1)).map
        (fun i => 2 ^ i * 1000) ∧
    (∀ (u k : Option String),
      (mkN8nClient u k { timeout := none, retries := none }).maxRetries = 3) := by
  by_cases hb : baseUrl = ""
  · refine ⟨?_, ?_, fun u k => rfl⟩ <;> simp [triggerModel, hb]
  · have hr := runAttempts_bounds (baseUrl ++ endpointForEvent ev.type) ev outcome maxRetries 0
      none
    refine ⟨?_, ?_, fun u k => rfl⟩
    · simp only [triggerModel, if_neg hb]
      exact hr.1
    · simp only [triggerModel, if_neg hb]
      simpa using hr.2.2

/-- C5: with a configured URL, every trigger call writes exactly one audit
    row, for the terminal outcome only: the success row of the responding
    attempt with the response body, or the error row carrying the last
    error message once all maxRetries attempts failed, in which case the
    call resolves to a failure value rather than throwing. -/
theorem webhook_terminal_logging (baseUrl : String) (maxRetries : Nat) (ev : N8nEvent)
    (outcome : Nat → Except String UpstreamResponse)
    (hurl : baseUrl ≠ "") (hretries : 1 ≤ maxRetries) :
    (triggerModel baseUrl maxRetries ev outcome).logs.length = 1 ∧
    ((triggerModel baseUrl maxRetries ev outcome).result.success = true →
       ∃ resp, outcome (triggerModel baseUrl maxRetries ev outcome).attempts
           = Except.ok resp ∧
         (triggerModel baseUrl maxRetries ev outcome).logs =
           [successLogRow (baseUrl ++ endpointForEvent ev.type) ev resp] ∧
         (triggerModel baseUrl maxRetries ev outcome).result =
           { success := true, executionId := getExecutionId resp, error := none }) ∧
    ((triggerModel baseUrl maxRetries ev outcome).result.success = false →
       (triggerModel baseUrl maxRetries ev outcome).attempts = maxRetries ∧
       ∃ e, outcome maxRetries = Except.error e ∧
         (triggerModel baseUrl maxRetries ev outcome).logs =
           [errorLogRow (baseUrl ++ endpointForEvent ev.type) ev (some e)] ∧
         (triggerModel baseUrl maxRetries ev outcome).result =
           { success := false, executionId := none, error := some (orUnknown (some e)) }) := by
  have hs := runAttempts_logs (baseUrl ++ endpointForEvent ev.type) ev outcome maxRetries 0 none
  obtain ⟨h1, h2, h3⟩ := hs
  simp only [triggerModel, if_neg hurl]
  refine ⟨h1, ?_, ?_⟩
  · intro hsucc
    obtain ⟨resp, hr1, hr2, hr3⟩ := h2 hsucc
    exact ⟨resp, by simpa using hr1, hr2, hr3⟩
  · intro hfail
    obtain ⟨ha, hb, _⟩ := h3 hfail
    obtain ⟨e, he1, he2, he3⟩ := hb hretries
    exact ⟨ha, e, by simpa using he1, he2, he3⟩

/-- Witness for C5: a concrete trigger whose first attempt fails and whose
    second attempt succeeds with an execution id. -/
theorem webhook_terminal_logging_witness :
    (triggerModel "https://n8n.example" 3 c5Ev c5Out).logs.length = 1 ∧
    ((triggerModel "https://n8n.example" 3 c5Ev c5Out).result.success = true →
       ∃ resp, c5Out (triggerModel "https://n8n.example" 3 c5Ev c5Out).attempts
           = Except.ok resp ∧
         (triggerModel "https://n8n.example" 3 c5Ev c5Out).logs =
           [successLogRow ("https://n8n.example" ++ endpointForEvent c5Ev.type) c5Ev resp] ∧
         (triggerModel "https://n8n.example" 3 c5Ev c5Out).result =
           { success := true, executionId := getExecutionId resp, error := none }) ∧
    ((triggerModel "https://n8n.example" 3 c5Ev c5Out).result.success = false →
       (triggerModel "https://n8n.example" 3 c5Ev c5Out).attempts = 3 ∧
       ∃ e, c5Out 3 = Except.error e ∧
         (triggerModel "https://n8n.example" 3 c5Ev c5Out).logs =
           [errorLogRow ("https://n8n.example" ++ endpointForEvent c5Ev.type) c5Ev (some e)] ∧
         (triggerModel "https://n8n.example" 3 c5Ev c5Out).result =
           { success := false, executionId := none, error := some (orUnknown (some e)) }) :=
  webhook_terminal_logging "https://n8n.example" 3 c5Ev c5Out (by decide) (by decide)

/-- C10: a client constructed without the webhook URL environment variable
    keeps an empty base URL, and every trigger call then returns the
    configuration failure immediately: no HTTP attempt, no backoff wait and
    no audit row, whatever the attempt outcomes would have been. -/
theorem webhook_unconfigured (envKey : Option String) (opts : N8nClientOptions)
    (ev : N8nEvent) (outcome : Nat → Except String UpstreamResponse) :
    (mkN8nClient none envKey opts).baseUrl = "" ∧
    triggerModel (mkN8nClient none envKey opts).baseUrl
        (mkN8nClient none envKey opts).maxRetries ev outcome =
      { result := { success := false, executionId := none,
                    error := some "n8n webhook URL not configured" }
        attempts := 0
        delaysMs := []
        logs := [] } := by
  refine ⟨rfl, ?_⟩
  simp [triggerModel, mkN8nClient]

/-- C6: every generateEmbedding call issues exactly one upstream request,
    whose text is exactly the first 8000 characters of the input with every
    newline replaced by a space; the successful result carries only the
    vector and token count, with no truncation marker, and an upstream
    error is rethrown to the caller unchanged, with no further request. -/
theorem embedding_truncation (oracle : List Char → Except String (List Int × Option Nat))
    (text : List Char) :
    (generateEmbeddingRun oracle text).1 =
      [(text.take 8000).map (fun c => if c = '\n' then ' ' else c)] ∧
    (generateEmbeddingRun oracle text).2 =
      Except.map (fun v => { embedding := v.1, tokenCount := v.2.getD 0 })
        (oracle ((text.take 8000).map (fun c => if c = '\n' then ' ' else c))) := by
  refine ⟨?_, ?_⟩
  · show (generateEmbeddingRun oracle text).1 = [processText text]
    unfold generateEmbeddingRun
    cases h : oracle (processText text) with
    | ok v => simp [h]
    | error e => simp [h]
  · show (generateEmbeddingRun oracle text).2 =
      Except.map (fun v => { embedding := v.1, tokenCount := v.2.getD 0 })
        (oracle (processText text))
    unfold generateEmbeddingRun
    cases h : oracle (processText text) with
    | ok v => simp [h, Except.map]
    | error e => simp [h, Except.map]

/-- C7 evaluation at the failing input: reembedTable writes the whole
    generateEmbedding result object into the embedding column of the row,
    which is not the regenerated embedding vector; the vector the embedding
    service produced for the row text is one two three, and the stored
    value is the object wrapping it with its token count. -/
theorem reembed_stores_result_object :
    (reembedTableModel c7EmbedO c7UpdateO "2024-02-01" [c7Row]).updated = 1 ∧
    (reembedTableModel c7EmbedO c7UpdateO "2024-02-01" [c7Row]).errors = [] ∧
    c7EmbedO (reembedText c7Row) =
      Except.ok { embedding := [1, 2, 3], tokenCount := 5 } ∧
    (reembedTableModel c7EmbedO c7UpdateO "2024-02-01" [c7Row]).rows.map
        SyncedRecord.embedding =
      [some (StoredEmbedding.resObj { embedding := [1, 2, 3], tokenCount := 5 })] ∧
    some (StoredEmbedding.resObj { embedding := [1, 2, 3], tokenCount := 5 })
      ≠ some (StoredEmbedding.vec [1, 2, 3]) := by
  refine ⟨rfl, rfl, rfl, rfl, ?_⟩
  decide

/-- C8: the citations attached by the chat route and the assembled context
    are derived from the same returned chunk list: either the context is
    the formatting of exactly the retrieved chunks and the citation source
    ids are exactly the document ids of those chunks, or both the context
    and the citations are empty. -/
theorem chat_citations_match_context (useRAG : Bool) (query now : String)
    (retrieval : Except String (List RagChunk)) :
    (∃ chunks, retrieval = Except.ok chunks ∧
       (buildRag useRAG query now retrieval).1 = formatChunksForContext chunks ∧
       (buildRag useRAG query now retrieval).2.map SourceCitation.source_id
         = chunks.map RagChunk.documentId) ∨
    ((buildRag useRAG query now retrieval).1 = "" ∧
     (buildRag useRAG query now retrieval).2 = []) := by
  unfold buildRag
  by_cases hguard : useRAG = true ∧ query ≠ ""
  · rw [if_pos hguard]
    cases retrieval with
    | error e => right; exact ⟨rfl, rfl⟩
    | ok chunks =>
        by_cases hlen : 0 < chunks.length
        · left
          refine ⟨chunks, rfl, ?_, ?_⟩
          · show (if 0 < chunks.length then
                (formatChunksForContext chunks,
                 (formatSourceCitations chunks).map (toSourceCitation now))
              else ("", [])).1 = formatChunksForContext chunks
            rw [if_pos hlen]
          · show ((if 0 < chunks.length then
                (formatChunksForContext chunks,
                 (formatSourceCitations chunks).map (toSourceCitation now))
              else ("", [])).2).map SourceCitation.source_id
              = chunks.map RagChunk.documentId
            rw [if_pos hlen]
            simp [formatSourceCitations, toSourceCitation, List.map_map]
        · right
          constructor
          · show (if 0 < chunks.length then
                (formatChunksForContext chunks,
                 (formatSourceCitations chunks).map (toSourceCitation now))
              else ("", [])).1 = ""
            rw [if_neg hlen]
          · show (if 0 < chunks.length then
                (formatChunksForContext chunks,
                 (formatSourceCitations chunks).map (toSourceCitation now))
              else ("", [])).2 = []
            rw [if_neg hlen]
  · rw [if_neg hguard]
    right
    exact ⟨rfl, rfl⟩

/-- C9: when the retrieval step of the chat route throws, the error is
    swallowed and the request proceeds: the RAG context stays empty, the
    citations stay empty, and the system message is the plain system
    prompt. -/
theorem chat_rag_failure_degrades (useRAG : Bool) (query now sysPrompt e : String) :
    (buildRag useRAG query now (Except.error e)).1 = "" ∧
    (buildRag useRAG query now (Except.error e)).2 = [] ∧
    mkSystemMessage sysPrompt (buildRag useRAG query now (Except.error e)).1 = sysPrompt := by
  have hself : (buildRag useRAG query now (Except.error e)) = ("", []) := by
    unfold buildRag
    by_cases hguard : useRAG = true ∧ query ≠ ""
    · rw [if_pos hguard]
    · rw [if_neg hguard]
  rw [hself]
  exact ⟨rfl, rfl, rfl⟩

end Acre
